import Mathlib

/-!
Verification development for the multi-tenant Telegram message-forwarding
engine (auto-Forward-messages).  The Python sources are shallowly embedded:
pure helpers become Lean functions on `List Char` / `Nat` / `Int`, stateful
handlers become explicit state-passing functions, and fallible operations
return `Option`.  Every definition is translated from the corresponding
Python function, keeping the source control flow (including its guards and
defaults) rather than the wording of the specification.
-/

/-! ## Character and string helpers shared by several modules -/

/-- Whitespace characters removed by Python `str.strip()` (ASCII subset,
which is all the repository's inputs use). -/
def is_py_space (c : Char) : Bool :=
  c = ' ' || c = '\t' || c = '\n' || c = '\r' || c = '\x0b' || c = '\x0c'

/-- Python `str.strip()` on a character list. -/
def py_strip (s : List Char) : List Char :=
  ((s.dropWhile is_py_space).reverse.dropWhile is_py_space).reverse

/-- Numeric value of a list of decimal digit characters (value of the
capture group of a `\d+` regex). -/
def digits_to_nat (ds : List Char) : Nat :=
  ds.foldl (fun acc c => 10 * acc + (c.toNat - '0'.toNat)) 0

/-- Split off the leading run of decimal digits (`\d+` with greedy,
leftmost-longest regex semantics). -/
def take_digits (s : List Char) : List Char × List Char :=
  (s.takeWhile Char.isDigit, s.dropWhile Char.isDigit)

/-- Python `int(s)` on an already stripped string: optional sign followed by
at least one digit; anything else raises `ValueError`, modelled as `none`. -/
def py_int (s : List Char) : Option Int :=
  match s with
  | '-' :: r => if r ≠ [] && r.all Char.isDigit then some (-(digits_to_nat r : Int)) else none
  | '+' :: r => if r ≠ [] && r.all Char.isDigit then some ((digits_to_nat r : Int)) else none
  | r => if r ≠ [] && r.all Char.isDigit then some ((digits_to_nat r : Int)) else none

/-! ## bot_manager._parse_user_delay

`BotManager._parse_user_delay(delay_str, default_seconds)` parses delay
strings such as `"2m 45s"`.  It lowercases and strips the input, extracts
the first `(\d+)\s*h`, `(\d+)\s*m` and `(\d+)\s*s` matches, sums them, and
when no unit matched falls back to `int(delay_str)`; a `ValueError` there
returns the caller-supplied default.  The final result of the parsing path
is `max(1, total_seconds)`.

The regex `re.search((\d+)\s*u, s)` finds the leftmost maximal digit run
that is followed (after optional whitespace) by the unit character `u`;
a failing run cannot match with any shorter sub-run (the next character
would be a digit, never the unit), so scanning run-by-run is exact. -/

/-- Leftmost match of `(\\d+)\\s*u` in `s`, returning the captured number.
The fuel argument (initially the length of the string) only discharges
termination; every recursive call shortens the list by at least one. -/
def search_num_unit_go (u : Char) : Nat → List Char → Option Nat
  | 0, _ => none
  | _, [] => none
  | fuel + 1, c :: rest =>
    if c.isDigit then
      let ds := c :: rest.takeWhile Char.isDigit
      let r := rest.dropWhile Char.isDigit
      match r.dropWhile is_py_space with
      | c2 :: _ => if c2 = u then some (digits_to_nat ds) else search_num_unit_go u fuel r
      | [] => search_num_unit_go u fuel r
    else
      search_num_unit_go u fuel rest

/-- Leftmost match of `(\\d+)\\s*u` in `s` (regex `re.search`). -/
def search_num_unit (u : Char) (s : List Char) : Option Nat :=
  search_num_unit_go u s.length s

/-- Body of `_parse_user_delay` after lowercasing and stripping: sum the
hour, minute and second matches; if nothing matched fall back to `int(s)`
(a failure there returns the default); floor the parsed total at 1. -/
def parse_user_delay_core (s : List Char) (default_seconds : Int) : Int :=
  let total : Nat :=
    3600 * (search_num_unit 'h' s).getD 0 + 60 * (search_num_unit 'm' s).getD 0 +
      (search_num_unit 's' s).getD 0
  if total = 0 then
    match py_int s with
    | some n => max 1 n
    | none => default_seconds
  else
    max 1 (total : Int)

/-- Embedding of `BotManager._parse_user_delay`.  `none` models a `None`
or non-string argument; the empty list is the falsy empty string. -/
def parse_user_delay (delay_str : Option (List Char)) (default_seconds : Int) : Int :=
  match delay_str with
  | none => default_seconds
  | some s0 =>
    if s0.isEmpty then default_seconds
    else parse_user_delay_core (py_strip (s0.map Char.toLower)) default_seconds

/-- CLAIM C4 (counterexample): the delay parsing maps the empty string to the
caller default (5 with the stock global default), not to 1 second as the
claim states. -/
theorem parse_user_delay_empty_counterexample :
    parse_user_delay (some []) 5 = 5 ∧ parse_user_delay (some []) 5 ≠ 1 :=
  ⟨rfl, by decide⟩

/-- CLAIM C4 (amended): the delay parsing maps "0" to 1 second (1-second
floor), "5m30s" to 330 seconds, "1h" to 3600 seconds, and garbage input to
the default value; the empty string also maps to the default value (not to
1 second); every returned value is either the caller default or at least
1 second. -/
theorem parse_user_delay_amended :
    parse_user_delay (some ['0']) 5 = 1 ∧
    parse_user_delay (some "5m30s".toList) 5 = 330 ∧
    parse_user_delay (some "1h".toList) 5 = 3600 ∧
    parse_user_delay (some "garbage".toList) 5 = 5 ∧
    (∀ d : Int, parse_user_delay (some []) d = d) ∧
    (∀ s d, parse_user_delay s d = d ∨ 1 ≤ parse_user_delay s d) := by
  refine ⟨by decide, by decide, by decide, by decide, fun d => rfl, fun s d => ?_⟩
  have core : ∀ (t : List Char), parse_user_delay_core t d = d ∨ 1 ≤ parse_user_delay_core t d := by
    intro t
    simp only [parse_user_delay_core]
    split
    · split
      · exact Or.inr (le_max_left _ _)
      · exact Or.inl rfl
    · exact Or.inr (le_max_left _ _)
  cases s with
  | none => exact Or.inl rfl
  | some s0 =>
    by_cases h0 : s0.isEmpty
    · exact Or.inl (by simp [parse_user_delay, h0])
    · simpa [parse_user_delay, h0] using core (py_strip (s0.map Char.toLower))

/-! ## bot.py operator management (process_add_secondary_admin,
process_update_admin_limit)

The admin bot keeps `admin_data = {primary_admin, admin_limit,
secondary_admins}`.  Adding a secondary admin refuses duplicates, the
primary admin, and any add once `len(secondary_admins) >= admin_limit`;
updating the limit refuses negative values and values below the current
secondary count. -/

structure AdminData where
  primary_admin : Int
  admin_limit : Int
  secondary_admins : List Int
deriving DecidableEq, Repr

/-- Embedding of `TelegramBotManager.process_add_secondary_admin` (the state
effect; replies are ignored). -/
def process_add_secondary_admin (d : AdminData) (admin_id : Int) : AdminData :=
  if admin_id ∈ d.secondary_admins then d
  else if admin_id = d.primary_admin then d
  else if d.admin_limit ≤ (d.secondary_admins.length : Int) then d
  else { d with secondary_admins := d.secondary_admins ++ [admin_id] }

/-- Embedding of `TelegramBotManager.process_update_admin_limit` (the state
effect; replies are ignored). -/
def process_update_admin_limit (d : AdminData) (new_limit : Int) : AdminData :=
  if new_limit < 0 then d
  else if new_limit < (d.secondary_admins.length : Int) then d
  else { d with admin_limit := new_limit }

/-- One operator-management request handled by the admin bot. -/
inductive AdminOp where
  | add (id : Int)
  | set_limit (n : Int)

def apply_admin_op (d : AdminData) : AdminOp → AdminData
  | .add id => process_add_secondary_admin d id
  | .set_limit n => process_update_admin_limit d n

/-- Single-step preservation of `|secondary| ≤ admin_limit`. -/
theorem apply_admin_op_preserves (d : AdminData) (op : AdminOp)
    (h : (d.secondary_admins.length : Int) ≤ d.admin_limit) :
    ((apply_admin_op d op).secondary_admins.length : Int) ≤ (apply_admin_op d op).admin_limit := by
  cases op with
  | add id =>
    show ((process_add_secondary_admin d id).secondary_admins.length : Int)
      ≤ (process_add_secondary_admin d id).admin_limit
    unfold process_add_secondary_admin
    split
    · exact h
    · split
      · exact h
      · split
        · exact h
        · rename_i hlt
          dsimp only
          simp only [List.length_append, List.length_cons, List.length_nil]
          push_cast
          omega
  | set_limit n =>
    show ((process_update_admin_limit d n).secondary_admins.length : Int)
      ≤ (process_update_admin_limit d n).admin_limit
    unfold process_update_admin_limit
    split
    · exact h
    · split
      · exact h
      · rename_i hneg hlt
        dsimp only
        omega

/-- CLAIM C8: the add-secondary-admin operation refuses once the secondary
count has reached `admin_limit`, and the update-admin-limit operation refuses
negative limits and limits below the current count, so every sequence of
these two operations preserves `|secondary_admins| ≤ admin_limit`. -/
theorem admin_limit_invariant (d : AdminData) (ops : List AdminOp)
    (h : (d.secondary_admins.length : Int) ≤ d.admin_limit) :
    ((ops.foldl apply_admin_op d).secondary_admins.length : Int)
      ≤ (ops.foldl apply_admin_op d).admin_limit := by
  induction ops generalizing d with
  | nil => exact h
  | cons op rest ih =>
    exact ih (apply_admin_op d op) (apply_admin_op_preserves d op h)

/-- Witness for C8 at a concrete state and operation sequence. -/
theorem admin_limit_invariant_witness :
    ((([] : List Int).length : Int) ≤ 2) ∧
    ((([AdminOp.add 5, AdminOp.set_limit 1, AdminOp.add 6]).foldl apply_admin_op
        ⟨1, 2, []⟩).secondary_admins.length : Int)
      ≤ (([AdminOp.add 5, AdminOp.set_limit 1, AdminOp.add 6]).foldl apply_admin_op
        ⟨1, 2, []⟩).admin_limit :=
  ⟨by decide, admin_limit_invariant ⟨1, 2, []⟩
    [AdminOp.add 5, AdminOp.set_limit 1, AdminOp.add 6] (by decide)⟩

/-! ## message_forwarder topic routing (_forward_to_topic,
_forward_to_main_chat_fallback)

`MessageForwarder._forward_to_topic` posts into a forum topic: in AS_COPY
mode it re-sends the text (or media) with `reply_to=topic_id`; otherwise it
issues `ForwardMessagesRequest(..., top_msg_id=topic_id,
silent=(mode==SILENT))`.  Its `except` clauses catch `TopicClosedError`,
`MessageIdInvalidError` and bare `Exception`, and each one calls
`_forward_to_main_chat_fallback`, which always issues a plain
`client.forward_messages(..., silent=(mode==SILENT))` with no topic routing.
Telegram calls are modelled as an emitted action trace plus an oracle for
the exception (if any) each call raises. -/

inductive ForwardingMode where
  | preserve_original
  | silent
  | as_copy
deriving DecidableEq, Repr

/-- Exception raised by a Telegram call, as far as the `except` clauses of
`_forward_to_topic` distinguish them. -/
inductive PyExc where
  | topic_closed_error
  | message_id_invalid_error
  | other (msg : String)
deriving DecidableEq, Repr

/-- One Telegram client call issued while forwarding. -/
inductive ClientAction where
  | send_message (reply_to : Option Nat)
  | send_file (reply_to : Option Nat)
  | forward_messages (silent : Bool) (top_msg_id : Option Nat)
deriving DecidableEq, Repr

/-- The single Telegram call `_forward_to_topic` makes before any exception
handling, by mode and message shape. -/
def topic_primary_action (mode : ForwardingMode) (has_text : Bool) (topic_id : Nat) :
    ClientAction :=
  match mode with
  | .as_copy =>
    if has_text then .send_message (some topic_id) else .send_file (some topic_id)
  | m => .forward_messages (decide (m = ForwardingMode.silent)) (some topic_id)

/-- Embedding of `_forward_to_main_chat_fallback`: the action it attempts
and whether it succeeds (`fallback_exc` is the exception that attempt
raises, if any). -/
def forward_to_main_chat_fallback (mode : ForwardingMode) (fallback_exc : Option PyExc) :
    List ClientAction × Bool :=
  ([.forward_messages (decide (mode = ForwardingMode.silent)) none], fallback_exc.isNone)

/-- Embedding of `_forward_to_topic`.  `primary_exc` is the exception the
topic-routed call raises (`none` for success), `fallback_exc` likewise for
the fallback call.  Returns the trace of attempted client calls and the
success flag. -/
def forward_to_topic (mode : ForwardingMode) (has_text : Bool) (topic_id : Nat)
    (primary_exc : Option PyExc) (fallback_exc : Option PyExc) :
    List ClientAction × Bool :=
  match primary_exc with
  | none => ([topic_primary_action mode has_text topic_id], true)
  | some PyExc.topic_closed_error =>
    let fb := forward_to_main_chat_fallback mode fallback_exc
    (topic_primary_action mode has_text topic_id :: fb.1, fb.2)
  | some PyExc.message_id_invalid_error =>
    let fb := forward_to_main_chat_fallback mode fallback_exc
    (topic_primary_action mode has_text topic_id :: fb.1, fb.2)
  | some (PyExc.other _) =>
    let fb := forward_to_main_chat_fallback mode fallback_exc
    (topic_primary_action mode has_text topic_id :: fb.1, fb.2)

/-- CLAIM C10: for every topic target, whenever the topic-routed attempt
raises any exception whatsoever — not only topic_closed or
message_id_invalid — the forwarder falls back to the main chat, and the
fallback is always a plain attribution-preserving `forward_messages` call
(no topic routing, never a copy), even when the requested mode is AS_COPY. -/
theorem topic_fallback_on_any_exception :
    ∀ (mode : ForwardingMode) (has_text : Bool) (topic_id : Nat) (e : PyExc)
      (fallback_exc : Option PyExc),
      (forward_to_topic mode has_text topic_id (some e) fallback_exc).1
        = [topic_primary_action mode has_text topic_id,
           ClientAction.forward_messages (decide (mode = ForwardingMode.silent)) none] ∧
      (forward_to_topic ForwardingMode.as_copy has_text topic_id (some e) fallback_exc).1.getLast?
        = some (ClientAction.forward_messages false none) := by
  intro mode has_text topic_id e fallback_exc
  refine ⟨?_, ?_⟩ <;> cases e <;> rfl

/-! ## message_forwarder retry policy (_forward_with_retry_enhanced)

`_forward_with_retry_enhanced` runs `for attempt in range(max_retries + 1)`
with `max_retries = 3` and `base_retry_delay = 30`.  Every iteration with
`attempt > 0` first sleeps the exponential backoff `30 * 2**(attempt-1)`,
then calls `forward_to_target`.  A success returns; the five non-retryable
error kinds break; a flood_wait result with truthy `retry_after` sleeps
`retry_after + 1` and `continue`s when flood-wait handling is enabled
(breaks when disabled); anything else falls through to the next iteration.
The loop is embedded as a trace generator over an outcome oracle
`outcomes : Nat → AttemptResult` giving the result of the k-th
`forward_to_target` call. -/

inductive ErrKind where
  | flood_wait
  | slow_mode
  | access_denied
  | write_forbidden
  | not_participant
  | invalid_target
  | topic_closed
  | invite_invalid
  | already_participant
  | unknown
deriving DecidableEq, Repr

/-- Result of one `forward_to_target` call, as far as the retry loop
inspects it. -/
structure AttemptResult where
  success : Bool
  error_type : Option ErrKind
  retry_after : Option Nat
deriving DecidableEq, Repr

/-- Membership in the non-retryable list of `_forward_with_retry_enhanced`. -/
def nonretryable_kind (k : ErrKind) : Bool :=
  match k with
  | .access_denied | .invalid_target | .write_forbidden | .invite_invalid
  | .already_participant => true
  | _ => false

/-- Python truthiness of `result.retry_after` (None and 0 are falsy). -/
def retry_after_truthy : Option Nat → Bool
  | some n => decide (n ≠ 0)
  | none => false

/-- Observable sleep/attempt events of one retry loop run. -/
inductive REvent where
  | backoff_sleep (secs : Nat)
  | attempt (idx : Nat)
  | flood_sleep (secs : Nat)
deriving DecidableEq, Repr

/-- Embedding of the `for attempt in range(max_retries + 1)` loop body of
`_forward_with_retry_enhanced`; the fuel argument counts the remaining
iterations of the bounded `range`. -/
def retry_loop (outcomes : Nat → AttemptResult) (flood_handling : Bool) :
    Nat → Nat → Option AttemptResult → List REvent × Option AttemptResult
  | 0, _, last => ([], last)
  | fuel + 1, attempt, _ =>
    let pre : List REvent :=
      if 0 < attempt then [.backoff_sleep (30 * 2 ^ (attempt - 1))] else []
    let r := outcomes attempt
    let ev := pre ++ [REvent.attempt attempt]
    if r.success then (ev, some r)
    else if (r.error_type.map nonretryable_kind).getD false then (ev, some r)
    else if r.error_type = some ErrKind.flood_wait && retry_after_truthy r.retry_after then
      if flood_handling then
        let rest := retry_loop outcomes flood_handling fuel (attempt + 1) (some r)
        (ev ++ REvent.flood_sleep (r.retry_after.getD 0 + 1) :: rest.1, rest.2)
      else (ev, some r)
    else
      let rest := retry_loop outcomes flood_handling fuel (attempt + 1) (some r)
      (ev ++ rest.1, rest.2)

/-- Embedding of `_forward_with_retry_enhanced` (`max_retries = 3`, hence
four loop iterations). -/
def forward_with_retry_enhanced (outcomes : Nat → AttemptResult)
    (flood_handling : Bool) : List REvent × Option AttemptResult :=
  retry_loop outcomes flood_handling 4 0 none

/-- Inter-target wait applied by `forward_messages_enhanced` after each
target (lines 491–497): a truthy `retry_after` on the final per-target
result replaces the configured inter-target delay. -/
def inter_target_wait (retry_after : Option Nat) (delay : Nat) (more_targets : Bool) :
    Option Nat :=
  if retry_after_truthy retry_after && more_targets then retry_after
  else if more_targets then some delay
  else none

/-- Outcome oracle: the first attempt fails with flood_wait
(retry_after = 12), the second succeeds. -/
def flood_then_success : Nat → AttemptResult := fun n =>
  if n = 0 then ⟨false, some ErrKind.flood_wait, some 12⟩ else ⟨true, none, none⟩

/-- CLAIM C1 (counterexample): with flood-wait handling enabled and a first
attempt failing with flood_wait (retry_after = 12), the retry loop sleeps
13 s and then additionally sleeps the 30 s exponential backoff before the
retry — the event between the flood-wait sleep and the reattempt is
`backoff_sleep 30`, refuting the claim that no other sleep is inserted
there. -/
theorem flood_wait_retry_counterexample :
    forward_with_retry_enhanced flood_then_success true
      = ([REvent.attempt 0, REvent.flood_sleep 13, REvent.backoff_sleep 30, REvent.attempt 1],
         some ⟨true, none, none⟩) := by
  decide

/-- Unfolding of one flood-wait iteration at attempt index 0. -/
theorem retry_loop_flood_step0 (outcomes : Nat → AttemptResult) (fuel : Nat)
    (last : Option AttemptResult) (ra : Nat) (hra : ra ≠ 0)
    (h0 : outcomes 0 = ⟨false, some ErrKind.flood_wait, some ra⟩) :
    retry_loop outcomes true (fuel + 1) 0 last
      = (REvent.attempt 0 :: REvent.flood_sleep (ra + 1)
            :: (retry_loop outcomes true fuel 1 (some (outcomes 0))).1,
         (retry_loop outcomes true fuel 1 (some (outcomes 0))).2) := by
  simp [retry_loop, h0, nonretryable_kind, retry_after_truthy, hra]

/-- Every iteration with a positive attempt index opens with the
exponential backoff sleep followed by the reattempt. -/
theorem retry_loop_trace_cons (outcomes : Nat → AttemptResult) (fh : Bool)
    (fuel a : Nat) (last : Option AttemptResult) (ha : 0 < a) :
    ∃ t, (retry_loop outcomes fh (fuel + 1) a last).1
      = REvent.backoff_sleep (30 * 2 ^ (a - 1)) :: REvent.attempt a :: t := by
  simp only [retry_loop, if_pos ha]
  split
  · exact ⟨[], rfl⟩
  · split
    · exact ⟨[], rfl⟩
    · split
      · split
        · exact ⟨REvent.flood_sleep ((outcomes a).retry_after.getD 0 + 1)
              :: (retry_loop outcomes fh fuel (a + 1) (some (outcomes a))).1, by simp⟩
        · exact ⟨[], rfl⟩
      · exact ⟨(retry_loop outcomes fh fuel (a + 1) (some (outcomes a))).1, by simp⟩

/-- CLAIM C1 (amended): for a target whose first forwarding attempt fails
with flood_wait carrying a nonzero retry_after, with flood-wait handling
enabled the retry policy sleeps retry_after + 1 seconds and reattempts the
same target before advancing, but the exponential backoff sleep of 30 s
(30·2^(attempt−1) for attempt 1) is additionally inserted between the
flood-wait sleep and the retry; the inter-target delay itself is not
charged extra — after a successful retry the ordinary delay applies. -/
theorem flood_wait_retry_amended (outcomes : Nat → AttemptResult) (ra : Nat)
    (hra : ra ≠ 0)
    (h0 : outcomes 0 = ⟨false, some ErrKind.flood_wait, some ra⟩) :
    (forward_with_retry_enhanced outcomes true).1.take 4
      = [REvent.attempt 0, REvent.flood_sleep (ra + 1),
         REvent.backoff_sleep 30, REvent.attempt 1] ∧
    (∀ d : Nat, inter_target_wait none d true = some d) := by
  refine ⟨?_, fun d => rfl⟩
  calc (forward_with_retry_enhanced outcomes true).1.take 4
      = ((REvent.attempt 0 :: REvent.flood_sleep (ra + 1)
            :: (retry_loop outcomes true 3 1 (some (outcomes 0))).1).take 4) := by
        show ((retry_loop outcomes true (3 + 1) 0 none).1.take 4) = _
        rw [retry_loop_flood_step0 outcomes 3 none ra hra h0]
    _ = [REvent.attempt 0, REvent.flood_sleep (ra + 1),
         REvent.backoff_sleep 30, REvent.attempt 1] := by
        obtain ⟨t, ht⟩ :=
          retry_loop_trace_cons outcomes true 2 1 (some (outcomes 0)) (by norm_num)
        rw [show (retry_loop outcomes true 3 1 (some (outcomes 0))).1
              = (retry_loop outcomes true (2 + 1) 1 (some (outcomes 0))).1 from rfl, ht]
        norm_num [List.take_succ_cons]

/-- Witness for the amended C1 at the concrete flood-wait oracle. -/
theorem flood_wait_retry_amended_witness :
    ((12 : Nat) ≠ 0 ∧
      flood_then_success 0 = ⟨false, some ErrKind.flood_wait, some 12⟩) ∧
    ((forward_with_retry_enhanced flood_then_success true).1.take 4
        = [REvent.attempt 0, REvent.flood_sleep (12 + 1),
           REvent.backoff_sleep 30, REvent.attempt 1] ∧
      (∀ d : Nat, inter_target_wait none d true = some d)) :=
  ⟨⟨by decide, by decide⟩,
    flood_wait_retry_amended flood_then_success 12 (by decide) (by decide)⟩

/-! ## bot_manager startup loading and expiry (load_user_configurations,
_check_user_expiry) and the multi_user worker loop guard

`load_user_configurations` walks the credentials document and skips an
account when: required fields are missing, `start` is falsy, the truthy
`expiry_date` is already past (`_check_user_expiry`), or the account's
active target list comes out empty (`if not user_groups: continue`).
`_check_user_expiry` parses `"%Y-%m-%d-%H:%M:%S"` and returns
`now > expiry`; a parse failure (exception path) returns False.  The
datetime is abstracted to a `Nat` timestamp: `ExpiryField.parsed t` is a
well-formed date string denoting instant `t`, `unparseable` a malformed
string, `absent` a missing/empty (falsy) field. -/

inductive ExpiryField where
  | absent
  | unparseable
  | parsed (t : Nat)
deriving DecidableEq, Repr

/-- Embedding of `BotManager._check_user_expiry`. -/
def check_user_expiry (now : Nat) : ExpiryField → Bool
  | .parsed t => decide (t < now)
  | _ => false

/-- Python truthiness of the `expiry_date` field (`if expiry_date and …`). -/
def expiry_truthy : ExpiryField → Bool
  | .absent => false
  | _ => true

/-- One entry of an account's list in the targets (groups) document: a full
record or a bare backwards-compatibility string. -/
inductive TargetEntry where
  | full (url : String) (active : Bool)
  | plain (url : String)
deriving DecidableEq, Repr

/-- Active URLs of a target list as collected by `load_user_configurations`
(records keep their url when `active` is true; plain strings always). -/
def active_urls (l : List TargetEntry) : List String :=
  l.filterMap fun e =>
    match e with
    | .full u a => if a then some u else none
    | .plain u => some u

/-- The fields of one credentials record that decide whether the account is
loaded at startup.  `has_required_fields` models presence of
api_id/api_hash/phone; the remaining per-user settings (delay, mode, …) do
not affect eligibility. -/
structure CredInfo where
  has_required_fields : Bool
  start : Bool
  expiry_date : ExpiryField
deriving DecidableEq, Repr

/-- Target list an account contributes at startup: its groups-document
entry filtered to active URLs, empty when the account has no entry. -/
def entry_active_urls (groups_entry : Option (List TargetEntry)) : List String :=
  match groups_entry with
  | some l => active_urls l
  | none => []

/-- Embedding of the per-account decision of `load_user_configurations`:
whether a user config (and hence later a worker) is created for the
account. -/
def user_loaded (now : Nat) (cred : CredInfo)
    (groups_entry : Option (List TargetEntry)) : Bool :=
  cred.has_required_fields && cred.start &&
    !(expiry_truthy cred.expiry_date && check_user_expiry now cred.expiry_date) &&
    !(entry_active_urls groups_entry).isEmpty

/-- CLAIM C2 (counterexample): an account with start = true, no expiry and
all required fields, but an empty target list, is skipped at startup — the
target list is an additional condition for worker creation. -/
theorem worker_creation_counterexample :
    user_loaded 0 ⟨true, true, ExpiryField.absent⟩ (some []) = false ∧
    (⟨true, true, ExpiryField.absent⟩ : CredInfo).start = true ∧
    check_user_expiry 0 ExpiryField.absent = false := by
  decide

/-- CLAIM C2 (amended): at supervisor startup a worker is initialised for a
persisted account precisely when its required fields are present, its start
flag is true, its expiry_date is not truthy-and-past, and additionally its
active target list is non-empty; accounts with an empty (or missing) target
list are skipped even when started and unexpired.  (Authorisation failures
additionally skip the account later, in `setup_user_client`.) -/
theorem worker_creation_amended (now : Nat) (cred : CredInfo)
    (groups_entry : Option (List TargetEntry)) :
    user_loaded now cred groups_entry = true ↔
      (cred.has_required_fields = true ∧ cred.start = true ∧
        ¬(expiry_truthy cred.expiry_date = true ∧
            check_user_expiry now cred.expiry_date = true) ∧
        entry_active_urls groups_entry ≠ []) := by
  cases cred with
  | mk hr st ed =>
    cases hA : expiry_truthy ed <;> cases hB : check_user_expiry now ed <;>
      cases hE : (entry_active_urls groups_entry).isEmpty <;>
        simp_all [user_loaded, Bool.and_eq_true, List.isEmpty_iff]

/-! ## multi_user.run_user_loop cycle guard and the watcher's expiry update

The worker loop condition is
`while not self.shutdown_requested and not user_config.is_expired and not
stop_event.is_set()`, followed by the empty-groups check.  The stored
`is_expired` flag is consulted — the loop never re-derives expiry from the
clock.  The flag itself is only recomputed by
`ConfigFileWatcher._handle_credentials_change` when the persisted
`expiry_date` string differs from the cached one. -/

inductive CycleAction where
  | terminate
  | skip_empty_sleep30
  | run_targets
deriving DecidableEq, Repr

/-- Embedding of the cycle-start decision of `run_user_loop`: terminate on
shutdown / stored expiry flag / stop event, skip (sleeping 30 s) on an
empty group list, otherwise run the targets.  Note that neither
`expiry_date` nor the current time is an input. -/
def cycle_start_action (shutdown_requested is_expired stop_set : Bool)
    (groups : List String) : CycleAction :=
  if shutdown_requested || is_expired || stop_set then .terminate
  else if groups.isEmpty then .skip_empty_sleep30
  else .run_targets

/-- Embedding of the watcher's expiry handling in
`_handle_credentials_change` (lines 163–177): the flag is recomputed only
when the raw expiry field changed. -/
def expiry_flag_after_cred_change (old_expiry new_expiry : ExpiryField)
    (old_flag : Bool) (now : Nat) : Bool :=
  if new_expiry = old_expiry then old_flag
  else expiry_truthy new_expiry && check_user_expiry now new_expiry

/-- CLAIM C3 (counterexample): a running worker whose expiry instant (50)
is already past (now = 100) but whose stored is_expired flag was never set
(no credentials edit occurred) starts its cycle and proceeds to the
targets, instead of ending before attempting any target. -/
theorem expiry_cycle_counterexample :
    check_user_expiry 100 (ExpiryField.parsed 50) = true ∧
    cycle_start_action false false false ["https://t.me/example"]
      = CycleAction.run_targets := by
  decide

/-- CLAIM C3 (amended): an account whose parseable expiry_date lies in the
past at supervisor startup is skipped (no worker is created); a running
worker terminates at the start of a cycle precisely when shutdown was
requested, its stored is_expired flag is set, or its stop event fired — the
derived predicate now > expiry_date is not consulted there; the flag is
(re)derived from the clock only when the watcher observes a changed
expiry_date, in which case a past date does set it. -/
theorem expiry_semantics_amended :
    (∀ (now t : Nat) (cred : CredInfo) (ge : Option (List TargetEntry)),
        cred.expiry_date = ExpiryField.parsed t → t < now →
        user_loaded now cred ge = false) ∧
    (∀ (sh st : Bool) (groups : List String),
        cycle_start_action sh true st groups = CycleAction.terminate) ∧
    (∀ (sh fl st : Bool) (groups : List String),
        cycle_start_action sh fl st groups = CycleAction.terminate ↔
          (sh || fl || st) = true) ∧
    (∀ (oldE newE : ExpiryField) (old_flag : Bool) (now t : Nat),
        newE = ExpiryField.parsed t → newE ≠ oldE → t < now →
        expiry_flag_after_cred_change oldE newE old_flag now = true) := by
  refine ⟨?_, ?_, ?_, ?_⟩
  · intro now t cred ge he hlt
    simp [user_loaded, he, expiry_truthy, check_user_expiry, hlt]
  · intro sh st groups
    simp [cycle_start_action]
  · intro sh fl st groups
    by_cases h : (sh || fl || st) = true
    · simp [cycle_start_action, h]
    · simp only [cycle_start_action, h, if_false, Bool.false_eq_true]
      constructor
      · intro hc
        split at hc <;> simp_all
      · intro hc
        exact hc.elim
  · intro oldE newE old_flag now t hpt hne hlt
    subst hpt
    simp [expiry_flag_after_cred_change, hne, expiry_truthy, check_user_expiry, hlt]

/-- Witness for the amended C3 at concrete inputs. -/
theorem expiry_semantics_amended_witness :
    user_loaded 100 ⟨true, true, ExpiryField.parsed 50⟩
        (some [TargetEntry.plain "u"]) = false ∧
    cycle_start_action false true false ["u"] = CycleAction.terminate ∧
    expiry_flag_after_cred_change ExpiryField.absent (ExpiryField.parsed 50)
        false 100 = true :=
  ⟨expiry_semantics_amended.1 100 50 ⟨true, true, ExpiryField.parsed 50⟩
      (some [TargetEntry.plain "u"]) rfl (by decide),
   expiry_semantics_amended.2.1 false false ["u"],
   expiry_semantics_amended.2.2.2 ExpiryField.absent (ExpiryField.parsed 50)
      false 100 50 rfl (by decide) (by decide)⟩

/-! ## bot.py enrolment (process_otp_verification)

After a successful `sign_in`, `process_otp_verification` moves the session
file aside (filesystem effect, not part of the document state) and then,
when the api_id is new, stores the `user_data` dict with the literal
defaults and initialises the account's targets entry — but only when the
targets (groups) document has no entry for that api_id yet
(`if api_id not in self.groups_data`).  When the api_id already exists in
credentials, only `phone` and `last_updated` (and the session path) are
updated.  The two documents are modelled as association lists keyed by
api_id; timestamps as `Nat`. -/

structure AccountRecord where
  api_id : String
  api_hash : String
  phone : String
  last_updated : Nat
  delay : String
  forward_mode : String
  mode_set : Bool
  start : Bool
  auto_start_forwarding : Bool
  expiry_date : Nat
deriving DecidableEq, Repr

/-- The `user_data` dict literal of `process_otp_verification`
(`expiry_date = now + timedelta(days=30)`). -/
def default_new_account (now : Nat) (api_id api_hash phone : String) : AccountRecord :=
  { api_id := api_id, api_hash := api_hash, phone := phone, last_updated := now,
    delay := "1m", forward_mode := "1", mode_set := true, start := false,
    auto_start_forwarding := true, expiry_date := now + 30 * 86400 }

/-- Embedding of the successful-sign-in tail of `process_otp_verification`:
its effect on the credentials and targets documents. -/
def process_otp_verification_success (now : Nat)
    (credentials : List (String × AccountRecord))
    (groups : List (String × List TargetEntry))
    (api_id api_hash phone : String) :
    List (String × AccountRecord) × List (String × List TargetEntry) :=
  match credentials.lookup api_id with
  | some _ =>
    (credentials.map fun p =>
        if p.1 = api_id then (p.1, { p.2 with phone := phone, last_updated := now }) else p,
     groups)
  | none =>
    let user_data := default_new_account now api_id api_hash phone
    let credentials2 := (api_id, user_data) :: credentials
    let groups2 :=
      match groups.lookup api_id with
      | some _ => groups
      | none => (api_id, ([] : List TargetEntry)) :: groups
    (credentials2, groups2)

/-- CLAIM C6 (counterexample): enrolling a new account (api_id "1" absent
from credentials) while a stale targets entry for "1" exists leaves that
entry untouched instead of initialising it to the empty list. -/
theorem enrolment_counterexample :
    ((process_otp_verification_success 0 [] [("1", [TargetEntry.plain "stale"])]
        "1" "h" "p").2.lookup "1" = some [TargetEntry.plain "stale"]) ∧
    some [TargetEntry.plain "stale"] ≠ some ([] : List TargetEntry) := by
  decide

/-- CLAIM C6 (amended): successful enrolment of a new account records it in
the credentials document with exactly the defaults delay = "1m",
forward_mode = "1", mode_set = true, start = false,
auto_start_forwarding = true, expiry_date = now + 30 days; the account's
targets entry is initialised to the empty list only when no entry exists
yet — a pre-existing targets entry is preserved unchanged. -/
theorem enrolment_amended (now : Nat)
    (credentials : List (String × AccountRecord))
    (groups : List (String × List TargetEntry)) (api_id api_hash phone : String)
    (hnew : credentials.lookup api_id = none) :
    ((process_otp_verification_success now credentials groups api_id api_hash
        phone).1.lookup api_id =
      some { api_id := api_id, api_hash := api_hash, phone := phone,
             last_updated := now, delay := "1m", forward_mode := "1",
             mode_set := true, start := false, auto_start_forwarding := true,
             expiry_date := now + 30 * 86400 }) ∧
    (groups.lookup api_id = none →
      (process_otp_verification_success now credentials groups api_id api_hash
          phone).2.lookup api_id = some ([] : List TargetEntry)) ∧
    (∀ old, groups.lookup api_id = some old →
      (process_otp_verification_success now credentials groups api_id api_hash
          phone).2.lookup api_id = some old) := by
  refine ⟨?_, ?_, ?_⟩
  · simp [process_otp_verification_success, hnew, default_new_account, List.lookup]
  · intro hg
    simp [process_otp_verification_success, hnew, hg, List.lookup]
  · intro old hg
    simp [process_otp_verification_success, hnew, hg, List.lookup]

/-- Witness for the amended C6 on fresh documents. -/
theorem enrolment_amended_witness :
    ((process_otp_verification_success 1000 [] [] "1" "h" "p").1.lookup "1" =
      some { api_id := "1", api_hash := "h", phone := "p", last_updated := 1000,
             delay := "1m", forward_mode := "1", mode_set := true, start := false,
             auto_start_forwarding := true, expiry_date := 1000 + 30 * 86400 }) ∧
    ((process_otp_verification_success 1000 [] [] "1" "h" "p").2.lookup "1" =
      some ([] : List TargetEntry)) :=
  ⟨(enrolment_amended 1000 [] [] "1" "h" "p" rfl).1,
   (enrolment_amended 1000 [] [] "1" "h" "p" rfl).2.1 rfl⟩

/-! ## bot.py target deletion (process_delete_urls)

`process_delete_urls` parses comma-separated 1-based indices, converts each
to 0-based keeping only non-negative results, and then pops them from the
user's URL list in `sorted(indices, reverse=True)` order, each pop guarded
by `0 <= idx < len(user_urls)`. -/

/-- One guarded `user_urls.pop(idx)` (the guard `0 <= idx < len` skips
out-of-range indices). -/
def pop_at {α : Type} (l : List α) (i : Nat) : List α :=
  if i < l.length then l.eraseIdx i else l

/-- Embedding of `process_delete_urls` on an already numeric index list:
1-based indices are shifted down (dropping values below 1, i.e. the parsed
`idx >= 0` filter) and popped in descending order. -/
def process_delete_urls {α : Type} (l : List α) (ks : List Nat) : List α :=
  let idxs := ks.filterMap fun k => if 1 ≤ k then some (k - 1) else none
  let sorted := idxs.insertionSort fun a b => b ≤ a
  sorted.foldl pop_at l

/-- Reference function: drop the elements whose 0-based position is listed
in `s`, keeping the order of the survivors (`n` is the position of the
first element of `l`). -/
def remove_idxs_aux (s : List Nat) : List α → Nat → List α
  | [], _ => []
  | a :: as, n =>
    if n ∈ s then remove_idxs_aux s as (n + 1) else a :: remove_idxs_aux s as (n + 1)

/-- The original list with the 0-based positions in `s` removed and order
otherwise preserved. -/
def remove_idxs (l : List α) (s : List Nat) : List α :=
  remove_idxs_aux s l 0

theorem remove_idxs_aux_no_hit (s : List Nat) (l : List α) (n : Nat)
    (h : ∀ j ∈ s, j < n) : remove_idxs_aux s l n = l := by
  induction l generalizing n with
  | nil => rfl
  | cons a as ih =>
    have hn : n ∉ s := fun hn => absurd (h n hn) (lt_irrefl n)
    simp [remove_idxs_aux, hn, ih (n + 1) (fun j hj => Nat.lt_succ_of_lt (h j hj))]

theorem remove_idxs_aux_congr (s₁ s₂ : List Nat) (l : List α) (n : Nat)
    (h : ∀ j, j ∈ s₁ ↔ j ∈ s₂) :
    remove_idxs_aux s₁ l n = remove_idxs_aux s₂ l n := by
  induction l generalizing n with
  | nil => rfl
  | cons a as ih =>
    by_cases hn : n ∈ s₁
    · simp [remove_idxs_aux, hn, (h n).mp hn, ih]
    · have hn2 : n ∉ s₂ := fun hc => hn ((h n).mpr hc)
      simp [remove_idxs_aux, hn, hn2, ih]

/-- Characterisation: `remove_idxs_aux` filters the position-indexed list. -/
theorem remove_idxs_aux_eq_enumFrom (s : List Nat) (l : List α) (n : Nat) :
    remove_idxs_aux s l n
      = ((List.enumFrom n l).filter fun p => decide (p.1 ∉ s)).map Prod.snd := by
  induction l generalizing n with
  | nil => rfl
  | cons a as ih =>
    by_cases hn : n ∈ s <;>
      simp [remove_idxs_aux, List.enumFrom_cons, List.filter_cons, hn, ih]

/-- Erasing a valid index `i` and then removing positions below `i` equals
removing position `n + i` together with those positions (`n` is the offset
of the first element). -/
theorem eraseIdx_remove_idxs_aux (l : List α) (i n : Nat) (s : List Nat)
    (hi : i < l.length) (hs : ∀ j ∈ s, j < n + i) :
    remove_idxs_aux s (l.eraseIdx i) n = remove_idxs_aux ((n + i) :: s) l n := by
  induction l generalizing i n with
  | nil => simp at hi
  | cons a as ih =>
    cases i with
    | zero =>
      have hs0 : ∀ j ∈ s, j < n := by simpa using hs
      have h1 : remove_idxs_aux s as n = as := remove_idxs_aux_no_hit _ _ _ hs0
      have h2 : remove_idxs_aux (n :: s) as (n + 1) = as := by
        refine remove_idxs_aux_no_hit _ _ _ ?_
        intro j hj
        rcases List.mem_cons.mp hj with rfl | hj
        · omega
        · exact Nat.lt_succ_of_lt (hs0 j hj)
      simp [List.eraseIdx_cons_zero, remove_idxs_aux, h1, h2]
    | succ i =>
      have hii : i < as.length := by simpa using hi
      have hss : ∀ j ∈ s, j < n + 1 + i := by
        intro j hj
        have := hs j hj
        omega
      have hne : n ≠ n + (i + 1) := by omega
      have hmem : (n ∈ (n + (i + 1)) :: s) ↔ n ∈ s := by
        simp [List.mem_cons, hne]
      have harith : n + 1 + i = n + (i + 1) := by omega
      by_cases hn : n ∈ s
      · rw [List.eraseIdx_cons_succ]
        simp only [remove_idxs_aux, if_pos hn, if_pos (hmem.mpr hn)]
        rw [ih i (n + 1) hii hss, harith]
      · rw [List.eraseIdx_cons_succ]
        simp only [remove_idxs_aux, if_neg hn, if_neg (fun hc => hn (hmem.mp hc))]
        rw [ih i (n + 1) hii hss, harith]

/-- Folding guarded pops over a strictly descending list of valid indices
removes exactly those positions. -/
theorem foldl_pop_at_desc (idxs : List Nat) (l : List α)
    (hsorted : idxs.Pairwise fun a b => b < a)
    (hlt : ∀ i ∈ idxs, i < l.length) :
    idxs.foldl pop_at l = remove_idxs l idxs := by
  induction idxs generalizing l with
  | nil =>
    exact (remove_idxs_aux_no_hit [] l 0 (by simp)).symm
  | cons i rest ih =>
    have hi : i < l.length := hlt i (List.mem_cons_self i rest)
    have hstep : pop_at l i = l.eraseIdx i := by simp [pop_at, hi]
    have hhead : ∀ j ∈ rest, j < i := (List.pairwise_cons.mp hsorted).1
    have hrest_lt : ∀ j ∈ rest, j < (l.eraseIdx i).length := by
      intro j hj
      have hlen := List.length_eraseIdx l i
      rw [if_pos hi] at hlen
      have := hhead j hj
      omega
    rw [List.foldl_cons, hstep, ih (l.eraseIdx i) (List.pairwise_cons.mp hsorted).2 hrest_lt]
    have := eraseIdx_remove_idxs_aux l i 0 rest hi (by
      intro j hj
      simpa using hhead j hj)
    simpa [remove_idxs] using this

/-- CLAIM C7: for every target list and every set of distinct valid 1-based
indices, the delete-targets-by-indices operation (which pops in reverse
index order) leaves the remaining list equal to the original with exactly
those positions removed, the order of the survivors preserved: survivor
positions are exactly those whose 1-based index is not listed. -/
theorem process_delete_urls_spec {α : Type} (l : List α) (ks : List Nat)
    (hnd : ks.Nodup) (hvalid : ∀ k ∈ ks, 1 ≤ k ∧ k ≤ l.length) :
    process_delete_urls l ks
      = (l.enum.filter fun p => decide (p.1 + 1 ∉ ks)).map Prod.snd := by
  have hidxs : (ks.filterMap fun k => if 1 ≤ k then some (k - 1) else none)
      = ks.map fun k => k - 1 := by
    clear hnd
    induction ks with
    | nil => rfl
    | cons k r ih =>
      have h1 := hvalid k (List.mem_cons_self k r)
      simp only [List.filterMap_cons, if_pos h1.1, List.map_cons]
      rw [ih fun x hx => hvalid x (List.mem_cons_of_mem _ hx)]
  have hgnd : (ks.map fun k => k - 1).Nodup := by
    refine List.Nodup.map_on ?_ hnd
    intro x hx y hy hxy
    have := (hvalid x hx).1
    have := (hvalid y hy).1
    omega
  have hperm := List.perm_insertionSort (fun a b => b ≤ a) (ks.map fun k => k - 1)
  have hsorted : List.Pairwise (fun a b : Nat => b ≤ a)
      ((ks.map fun k => k - 1).insertionSort fun a b => b ≤ a) :=
    List.sorted_insertionSort _ _
  have hnd2 : ((ks.map fun k => k - 1).insertionSort fun a b => b ≤ a).Nodup :=
    hperm.nodup_iff.mpr hgnd
  have hstrict : List.Pairwise (fun a b : Nat => b < a)
      ((ks.map fun k => k - 1).insertionSort fun a b => b ≤ a) :=
    (hsorted.and hnd2).imp fun h => lt_of_le_of_ne h.1 fun hc => h.2 hc.symm
  have hltall : ∀ i ∈ (ks.map fun k => k - 1).insertionSort fun a b => b ≤ a,
      i < l.length := by
    intro i hi
    have hig : i ∈ ks.map fun k => k - 1 := hperm.subset hi
    obtain ⟨k, hk, rfl⟩ := List.mem_map.mp hig
    have := (hvalid k hk).1
    have := (hvalid k hk).2
    omega
  simp only [process_delete_urls, hidxs]
  rw [foldl_pop_at_desc _ l hstrict hltall]
  rw [remove_idxs, remove_idxs_aux_congr _ ((ks.map fun k => k - 1)) l 0
    fun j => hperm.mem_iff]
  rw [remove_idxs_aux_eq_enumFrom]
  show ((List.enumFrom 0 l).filter _).map Prod.snd = (l.enum.filter _).map Prod.snd
  congr 1
  refine List.filter_congr ?_
  intro p _
  have : (p.1 ∈ ks.map fun k => k - 1) ↔ p.1 + 1 ∈ ks := by
    constructor
    · intro hp
      obtain ⟨k, hk, he⟩ := List.mem_map.mp hp
      have := (hvalid k hk).1
      have : k = p.1 + 1 := by omega
      exact this ▸ hk
    · intro hp
      exact List.mem_map.mpr ⟨p.1 + 1, hp, by omega⟩
  simp [this]

/-- Witness for C7: deleting 1-based indices 2 and 4 from a four-element
list keeps elements 1 and 3. -/
theorem process_delete_urls_spec_witness :
    process_delete_urls [10, 20, 30, 40] [2, 4] = [10, 30] :=
  (process_delete_urls_spec [10, 20, 30, 40] [2, 4] (by decide)
    (by decide)).trans (by decide)

/-! ## url_parser (URL_PATTERNS, parse_telegram_url, _process_match)

`parse_telegram_url` strips the input, then tries the compiled regexes of
`URL_PATTERNS` in dict order — private_topic, private_channel,
public_topic, public_channel, username_format, direct_chat_id, joinchat,
invite_link_plus, invite_link_hash — with first match winning, then falls
back to `_is_valid_username` (plain_username) or an invalid result.

Each regex is embedded as a character-level matcher.  All the regexes are
deterministic in the sense that greedy maximal-run matching is exact:
every quantified class (`\d`, `[a-zA-Z0-9_]`, `[a-zA-Z0-9_-]`) is disjoint
from the character that must follow it (`/`, `?`, `#`, end, or a literal),
so backtracking can never produce a match that maximal runs miss. -/

/-- Character class `[a-zA-Z0-9_]` of the public/username patterns. -/
def is_word_char (c : Char) : Bool :=
  c.isAlpha || c.isDigit || c = '_'

/-- Character class `[a-zA-Z0-9_-]` of the invite-hash patterns. -/
def is_hash_char (c : Char) : Bool :=
  c.isAlphanum || c = '_' || c = '-'

/-- Consume a literal case-insensitively (`re.IGNORECASE`), returning the
rest of the input. -/
def expect_ci : List Char → List Char → Option (List Char)
  | [], s => some s
  | _ :: _, [] => none
  | l :: ls, c :: cs => if c.toLower = l.toLower then expect_ci ls cs else none

/-- Consume `https?://t\.me/` case-insensitively. -/
def strip_scheme (s : List Char) : Option (List Char) :=
  (expect_ci ['h', 't', 't', 'p'] s).bind fun r =>
    let r1 := match r with
      | c :: r2 => if c.toLower = 's' then r2 else c :: r2
      | [] => []
    expect_ci [':', '/', '/', 't', '.', 'm', 'e', '/'] r1

/-- Match the common suffix `/?(?:\?[^#]*)?(?:#.*)?$` of the URL patterns:
an optional slash, then either the end, a query (`?` followed by non-`#`
characters and an optional fragment), or a fragment. -/
def match_tail (s : List Char) : Bool :=
  let s1 := match s with
    | c :: r => if c = '/' then r else c :: r
    | [] => ([] : List Char)
  match s1 with
  | [] => true
  | c :: r =>
    if c = '?' then
      (match r.dropWhile (fun x => x ≠ '#') with
       | [] => true
       | c2 :: _ => decide (c2 = '#'))
    else decide (c = '#')

/-- Captures of `https?://t\.me/c/(-?\d+)/(\d+)…`: signed chat id and topic. -/
def match_private_topic (s : List Char) : Option (Int × Nat) :=
  (strip_scheme s).bind fun r =>
  (expect_ci ['c', '/'] r).bind fun r1 =>
  let signed := match r1 with
    | '-' :: t => (true, t)
    | _ => (false, r1)
  let ds := take_digits signed.2
  if ds.1.isEmpty then none
  else
    match ds.2 with
    | '/' :: r4 =>
      let ts := take_digits r4
      if ts.1.isEmpty then none
      else if match_tail ts.2 then
        some (if signed.1 then -(digits_to_nat ds.1 : Int) else (digits_to_nat ds.1 : Int),
              digits_to_nat ts.1)
      else none
    | _ => none

/-- Captures of `https?://t\.me/c/(-?\d+)…`: signed chat id. -/
def match_private_channel (s : List Char) : Option Int :=
  (strip_scheme s).bind fun r =>
  (expect_ci ['c', '/'] r).bind fun r1 =>
  let signed := match r1 with
    | '-' :: t => (true, t)
    | _ => (false, r1)
  let ds := take_digits signed.2
  if ds.1.isEmpty then none
  else if match_tail ds.2 then
    some (if signed.1 then -(digits_to_nat ds.1 : Int) else (digits_to_nat ds.1 : Int))
  else none

/-- Split off the leading `[a-zA-Z][a-zA-Z0-9_]{3,31}` candidate run. -/
def take_name (s : List Char) : List Char × List Char :=
  (s.takeWhile is_word_char, s.dropWhile is_word_char)

/-- Length and first-character constraints of the captured name. -/
def name_ok (n : List Char) : Bool :=
  4 ≤ n.length && n.length ≤ 32 &&
    (match n with
     | c :: _ => c.isAlpha
     | [] => false)

/-- Captures of `https?://t\.me/(name)/(\d+)…`. -/
def match_public_topic (s : List Char) : Option (List Char × Nat) :=
  (strip_scheme s).bind fun r =>
  let nm := take_name r
  if name_ok nm.1 then
    match nm.2 with
    | '/' :: r2 =>
      let ts := take_digits r2
      if ts.1.isEmpty then none
      else if match_tail ts.2 then some (nm.1, digits_to_nat ts.1)
      else none
    | _ => none
  else none

/-- Captures of `https?://t\.me/(name)…`. -/
def match_public_channel (s : List Char) : Option (List Char) :=
  (strip_scheme s).bind fun r =>
  let nm := take_name r
  if name_ok nm.1 && match_tail nm.2 then some nm.1 else none

/-- Captures of `^@(name)/?$`. -/
def match_username_format (s : List Char) : Option (List Char) :=
  match s with
  | '@' :: r =>
    let nm := take_name r
    if name_ok nm.1 then
      match nm.2 with
      | [] => some nm.1
      | ['/'] => some nm.1
      | _ => none
    else none
  | _ => none

/-- Captures of `^(-?\d+)$`. -/
def match_direct_chat_id (s : List Char) : Option Int :=
  let signed := match s with
    | '-' :: t => (true, t)
    | _ => (false, s)
  let ds := take_digits signed.2
  if ds.1.isEmpty || !ds.2.isEmpty then none
  else some (if signed.1 then -(digits_to_nat ds.1 : Int) else (digits_to_nat ds.1 : Int))

/-- Split off the leading `[a-zA-Z0-9_-]` run. -/
def take_hash (s : List Char) : List Char × List Char :=
  (s.takeWhile is_hash_char, s.dropWhile is_hash_char)

/-- Captures of `https?://t\.me/joinchat/([a-zA-Z0-9_-]+)…`. -/
def match_joinchat (s : List Char) : Option (List Char) :=
  (strip_scheme s).bind fun r =>
  (expect_ci ['j', 'o', 'i', 'n', 'c', 'h', 'a', 't', '/'] r).bind fun r1 =>
  let hh := take_hash r1
  if hh.1.isEmpty then none
  else if match_tail hh.2 then some hh.1 else none

/-- Captures of `https?://t\.me/\+([a-zA-Z0-9_-]+)…`. -/
def match_invite_plus (s : List Char) : Option (List Char) :=
  (strip_scheme s).bind fun r =>
  match r with
  | '+' :: r1 =>
    let hh := take_hash r1
    if hh.1.isEmpty then none
    else if match_tail hh.2 then some hh.1 else none
  | _ => none

/-- Captures of `https?://t\.me/([a-zA-Z0-9_-]{22,})…`. -/
def match_invite_hash (s : List Char) : Option (List Char) :=
  (strip_scheme s).bind fun r =>
  let hh := take_hash r
  if hh.1.length < 22 then none
  else if match_tail hh.2 then some hh.1 else none

/-- Embedding of `URLParser._is_valid_username`. -/
def is_valid_username (u0 : List Char) : Bool :=
  let u := u0.dropWhile (fun c => c = '@')
  if u.length < 5 || 32 < u.length then false
  else if !(match u with
            | c :: rest =>
              c.isAlpha &&
                (match rest.getLast? with
                 | some d => rest.all is_word_char && d.isAlphanum
                 | none => false)
            | [] => false) then false
  else if (let rec has_dd : List Char → Bool
             | '_' :: '_' :: _ => true
             | _ :: t => has_dd t
             | [] => false
           has_dd u) then false
  else true

/-- Embedding of `URLParser.persisted chat-id normalisation _format_chat_id`:
positive ids become `int('-100' + str(id))`. -/
def format_chat_id (n : Int) : Int :=
  if 0 < n then -((100 * 10 ^ (Nat.toDigits 10 n.toNat).length + n.toNat : Nat) : Int)
  else n

/-- Decimal rendering of an integer (`str(chat_id)`). -/
def int_to_chars (n : Int) : List Char :=
  if n < 0 then '-' :: Nat.toDigits 10 n.natAbs else Nat.toDigits 10 n.toNat

/-- Embedding of the `ParsedURL` dataclass. -/
structure ParsedURL where
  identifier : List Char
  topic_id : Option Nat
  url_type : String
  chat_id : Option Int
  is_valid : Bool
  original_url : List Char
  invite_hash : Option (List Char) := none
  requires_join : Bool := false
deriving DecidableEq, Repr

/-- Embedding of `URLParser.parse_telegram_url` composed with
`_process_match`: patterns tried in the order of the `URL_PATTERNS` dict,
first match winning, then the plain-username fallback. -/
def parse_telegram_url (url : List Char) : ParsedURL :=
  let original := url
  let s := py_strip url
  if s.isEmpty then
    ⟨original, none, "empty", none, false, original, none, false⟩
  else
    match match_private_topic s with
    | some (cid, tid) =>
      let f := format_chat_id cid
      ⟨int_to_chars f, some tid, "private_topic", some f, true, original, none, false⟩
    | none =>
    match match_private_channel s with
    | some cid =>
      let f := format_chat_id cid
      ⟨int_to_chars f, none, "private_channel", some f, true, original, none, false⟩
    | none =>
    match match_public_topic s with
    | some (nm, tid) =>
      ⟨nm, some tid, "public_topic", none, is_valid_username nm, original, none, false⟩
    | none =>
    match match_public_channel s with
    | some nm =>
      ⟨nm, none, "public_channel", none, is_valid_username nm, original, none, false⟩
    | none =>
    match match_username_format s with
    | some nm =>
      ⟨nm, none, "username_format", none, is_valid_username nm, original, none, false⟩
    | none =>
    match match_direct_chat_id s with
    | some cid =>
      ⟨int_to_chars cid, none, "direct_chat_id", some cid, true, original, none, false⟩
    | none =>
    match match_joinchat s with
    | some hh =>
      ⟨hh, none, "joinchat", none, decide (10 ≤ hh.length), original, some hh, true⟩
    | none =>
    match match_invite_plus s with
    | some hh =>
      ⟨hh, none, "invite_link_plus", none, decide (10 ≤ hh.length), original, some hh, true⟩
    | none =>
    match match_invite_hash s with
    | some hh =>
      ⟨hh, none, "invite_link_hash", none, decide (10 ≤ hh.length), original, some hh, true⟩
    | none =>
    if is_valid_username s then
      ⟨s, none, "plain_username", none, true, original, none, false⟩
    else
      ⟨s, none, "unknown", none, false, original, none, false⟩

/-! ### Facts about the character classes and the stripped input, used to
evaluate the pattern cascade on a symbolic invite hash. -/

theorem dropWhile_all_neg {p : Char → Bool} {s : List Char}
    (h : ∀ c ∈ s, p c = false) : s.dropWhile p = s := by
  cases s with
  | nil => rfl
  | cons c t => simp [List.dropWhile_cons, h c (List.mem_cons_self c t)]

theorem dropWhile_head_neg {p : Char → Bool} {s : List Char} {c : Char}
    {t : List Char} (h : s.dropWhile p = c :: t) : p c = false := by
  induction s with
  | nil => simp at h
  | cons a as ih =>
    rw [List.dropWhile_cons] at h
    by_cases ha : p a = true
    · rw [if_pos ha] at h
      exact ih h
    · rw [if_neg ha] at h
      injection h with h1 h2
      rw [← h1]
      simpa using ha

theorem py_strip_eq_self (s : List Char)
    (h : ∀ c ∈ s, is_py_space c = false) : py_strip s = s := by
  unfold py_strip
  rw [dropWhile_all_neg h,
    dropWhile_all_neg fun c hc => h c (List.mem_reverse.mp hc),
    List.reverse_reverse]

theorem hash_char_not_space {c : Char} (h : is_hash_char c = true) :
    is_py_space c = false := by
  rcases Bool.eq_false_or_eq_true (is_py_space c) with ht | hf
  · exfalso
    simp only [is_py_space, Bool.or_eq_true, decide_eq_true_eq] at ht
    rcases ht with ((((rfl | rfl) | rfl) | rfl) | rfl) | rfl <;> exact absurd h (by decide)
  · exact hf

theorem hash_char_not_delim {c : Char} (h : is_hash_char c = true) :
    c ≠ '/' ∧ c ≠ '?' ∧ c ≠ '#' := by
  refine ⟨fun hc => ?_, fun hc => ?_, fun hc => ?_⟩ <;>
    (subst hc; exact absurd h (by decide))

theorem match_tail_hash_cons (c : Char) (t : List Char)
    (h : is_hash_char c = true) : match_tail (c :: t) = false := by
  obtain ⟨h1, h2, h3⟩ := hash_char_not_delim h
  simp [match_tail, h1, h2, h3]

/-- The literal URL prefix `https://t.me/joinchat/`. -/
def joinchat_url_head : List Char :=
  ['h', 't', 't', 'p', 's', ':', '/', '/', 't', '.', 'm', 'e', '/',
   'j', 'o', 'i', 'n', 'c', 'h', 'a', 't', '/']

/-- CLAIM C5 (counterexample): the all-digits string "1234567890" is
accepted by the invite-hash grammar `[a-zA-Z0-9_-]+`, yet
`https://t.me/joinchat/1234567890` is classified as a public topic (name
"joinchat", topic 1234567890) rather than as an invite link, because the
public patterns are tried before the joinchat pattern. -/
theorem joinchat_numeric_hash_counterexample :
    (parse_telegram_url "https://t.me/joinchat/1234567890".toList).url_type
        = "public_topic" ∧
    (parse_telegram_url "https://t.me/joinchat/1234567890".toList).identifier
        = "joinchat".toList ∧
    (parse_telegram_url "https://t.me/joinchat/1234567890".toList).invite_hash = none ∧
    (parse_telegram_url "https://t.me/joinchat/1234567890".toList).requires_join = false ∧
    ("1234567890".toList ≠ [] ∧
      ∀ c ∈ "1234567890".toList, is_hash_char c = true) := by
  decide

/-- CLAIM C5 (amended): URL parsing tries the patterns in the
implementation order (private, public, username, chat-id, then invite
patterns), first match winning; consequently, for every hash string h of
the invite-hash grammar that contains at least one non-digit character,
parsing `https://t.me/joinchat/<h>` yields the joinchat invite kind with
invite_hash = h and requires_join = true (valid when h has at least 10
characters) — while an all-digits h is instead classified as a public
topic named "joinchat". -/
theorem joinchat_invite_amended (h : List Char) (hne : h ≠ [])
    (hhash : ∀ c ∈ h, is_hash_char c = true)
    (hnd : ∃ c ∈ h, c.isDigit = false) :
    parse_telegram_url (joinchat_url_head ++ h)
      = ⟨h, none, "joinchat", none, decide (10 ≤ h.length),
         joinchat_url_head ++ h, some h, true⟩ := by
  have hstrip : py_strip (joinchat_url_head ++ h) = joinchat_url_head ++ h := by
    refine py_strip_eq_self _ ?_
    intro c hc
    rcases List.mem_append.mp hc with hc | hc
    · revert hc
      have : ∀ c ∈ joinchat_url_head, is_py_space c = false := by decide
      exact this c
    · exact hash_char_not_space (hhash c hc)
  have hr : h.dropWhile Char.isDigit ≠ [] := by
    intro h0
    obtain ⟨c, hc, hcd⟩ := hnd
    have := (List.dropWhile_eq_nil_iff.mp h0) c hc
    simp [this] at hcd
  obtain ⟨c0, t0, hr0⟩ := List.exists_cons_of_ne_nil hr
  have hc0 : is_hash_char c0 = true := by
    apply hhash
    exact (List.dropWhile_suffix Char.isDigit).sublist.subset
      (hr0 ▸ List.mem_cons_self c0 t0)
  have hpt : match_private_topic (joinchat_url_head ++ h) = none := rfl
  have hpc : match_private_channel (joinchat_url_head ++ h) = none := rfl
  have hun : match_username_format (joinchat_url_head ++ h) = none := rfl
  have hdc : match_direct_chat_id (joinchat_url_head ++ h) = none := rfl
  have hmt : match_tail (h.dropWhile Char.isDigit) = false := by
    rw [hr0]
    exact match_tail_hash_cons c0 t0 hc0
  have hptop : match_public_topic (joinchat_url_head ++ h) = none := by
    show (let ts := take_digits h;
          if ts.1.isEmpty then none
          else if match_tail ts.2 then
            some (['j', 'o', 'i', 'n', 'c', 'h', 'a', 't'], digits_to_nat ts.1)
          else none) = none
    simp [take_digits, hmt]
  have hmt2 : match_tail ('/' :: h) = false := by
    obtain ⟨c1, t1, rfl⟩ := List.exists_cons_of_ne_nil hne
    obtain ⟨d1, d2, d3⟩ := hash_char_not_delim (hhash c1 (List.mem_cons_self c1 t1))
    simp [match_tail, d2, d3]
  have hpchan : match_public_channel (joinchat_url_head ++ h) = none := by
    show (if name_ok ['j', 'o', 'i', 'n', 'c', 'h', 'a', 't'] && match_tail ('/' :: h) then
            some ['j', 'o', 'i', 'n', 'c', 'h', 'a', 't']
          else none) = none
    simp [hmt2]
  have hjc : match_joinchat (joinchat_url_head ++ h) = some h := by
    show (let hh := take_hash h;
          if hh.1.isEmpty then none
          else if match_tail hh.2 then some hh.1 else none) = some h
    have htw : h.takeWhile is_hash_char = h := List.takeWhile_eq_self_iff.mpr hhash
    have hdw : h.dropWhile is_hash_char = [] := List.dropWhile_eq_nil_iff.mpr hhash
    simp only [take_hash, htw, hdw]
    obtain ⟨c1, t1, rfl⟩ := List.exists_cons_of_ne_nil hne
    simp [match_tail]
  have hie : (joinchat_url_head ++ h).isEmpty = false := rfl
  simp only [parse_telegram_url, hstrip, hie, Bool.false_eq_true, if_false,
    hpt, hpc, hptop, hpchan, hun, hdc, hjc]

/-- Witness for the amended C5 at the concrete hash "abcdefghij". -/
theorem joinchat_invite_amended_witness :
    parse_telegram_url (joinchat_url_head ++ "abcdefghij".toList)
      = ⟨"abcdefghij".toList, none, "joinchat", none,
         decide (10 ≤ "abcdefghij".toList.length),
         joinchat_url_head ++ "abcdefghij".toList, some "abcdefghij".toList,
         true⟩ :=
  joinchat_invite_amended "abcdefghij".toList (by decide) (by decide)
    ⟨'a', by decide, by decide⟩

/-! ## Persistent document reads (bot_manager.load_user_configurations,
multi_user._handle_groups_change)

The credentials document is read with a plain `json.load`; a
`JSONDecodeError` makes the load return False (modelled `none`).  The
groups document is read as text, stripped, and a comma at the very end of
the document (`content.endswith(',}')` / `content.endswith(',]')`) is
replaced before `json.loads`.  The strict JSON reader itself is the Python
standard library, external to the repository; it is modelled below by a
small fuelled parser implementing the strict JSON grammar (objects,
arrays, strings with escapes kept raw, signed integer numbers, true/false/
null), which in particular rejects a comma directly before `}` or `]`. -/

inductive JVal where
  | null
  | bool (b : Bool)
  | num (neg : Bool) (digits : List Char)
  | str (raw : List Char)
  | arr (xs : List JVal)
  | obj (kvs : List (List Char × JVal))
deriving Repr

/-- Strict JSON whitespace. -/
def json_ws (c : Char) : Bool :=
  c = ' ' || c = '\t' || c = '\n' || c = '\r'

def skip_ws (s : List Char) : List Char := s.dropWhile json_ws

/-- Body of a JSON string after the opening quote; escapes are kept raw. -/
def parse_jstring_body : Nat → List Char → Option (List Char × List Char)
  | 0, _ => none
  | _, [] => none
  | fuel + 1, c :: r =>
    if c = '"' then some ([], r)
    else if c = '\\' then
      match r with
      | c2 :: r2 => (parse_jstring_body fuel r2).map fun p => (c :: c2 :: p.1, p.2)
      | [] => none
    else (parse_jstring_body fuel r).map fun p => (c :: p.1, p.2)

/-- Consume a literal keyword tail (`rue`, `alse`, `ull`). -/
def expect_lit : List Char → List Char → Option (List Char)
  | [], s => some s
  | _ :: _, [] => none
  | l :: ls, c :: cs => if c = l then expect_lit ls cs else none

/-- Remaining elements of an array after the first one: strictly `]` or
`,` followed by a value — a comma before `]` fails. -/
def parse_arr_rest (pv : List Char → Option (JVal × List Char)) :
    Nat → List Char → Option (List JVal × List Char)
  | 0, _ => none
  | _, [] => none
  | fuel + 1, c :: r =>
    if c = ']' then some ([], r)
    else if c = ',' then
      (pv (skip_ws r)).bind fun p =>
        (parse_arr_rest pv fuel (skip_ws p.2)).map fun q => (p.1 :: q.1, q.2)
    else none

/-- One `"key": value` member. -/
def parse_obj_pair (pv : List Char → Option (JVal × List Char)) (sfuel : Nat)
    (s : List Char) : Option ((List Char × JVal) × List Char) :=
  match s with
  | '"' :: r =>
    (parse_jstring_body sfuel r).bind fun k =>
      match skip_ws k.2 with
      | ':' :: r2 => (pv r2).map fun v => ((k.1, v.1), v.2)
      | _ => none
  | _ => none

/-- Remaining members of an object after the first one: strictly `}` or
`,` followed by a member — a comma before `}` fails. -/
def parse_obj_rest (pv : List Char → Option (JVal × List Char)) (sfuel : Nat) :
    Nat → List Char → Option (List (List Char × JVal) × List Char)
  | 0, _ => none
  | _, [] => none
  | fuel + 1, c :: r =>
    if c = '}' then some ([], r)
    else if c = ',' then
      (parse_obj_pair pv sfuel (skip_ws r)).bind fun p =>
        (parse_obj_rest pv sfuel fuel (skip_ws p.2)).map fun q => (p.1 :: q.1, q.2)
    else none

/-- One step of the value grammar, with `pv` parsing nested values. -/
def parse_jval_step (pv : List Char → Option (JVal × List Char)) (fuel : Nat)
    (s : List Char) : Option (JVal × List Char) :=
  match skip_ws s with
  | [] => none
  | c :: r =>
    if c = '{' then
      match skip_ws r with
      | '}' :: r2 => some (JVal.obj [], r2)
      | s2 =>
        (parse_obj_pair pv fuel s2).bind fun p =>
          (parse_obj_rest pv fuel fuel (skip_ws p.2)).map fun q =>
            (JVal.obj (p.1 :: q.1), q.2)
    else if c = '[' then
      match skip_ws r with
      | ']' :: r2 => some (JVal.arr [], r2)
      | s2 =>
        (pv s2).bind fun p =>
          (parse_arr_rest pv fuel (skip_ws p.2)).map fun q =>
            (JVal.arr (p.1 :: q.1), q.2)
    else if c = '"' then
      (parse_jstring_body fuel r).map fun p => (JVal.str p.1, p.2)
    else if c = 't' then (expect_lit ['r', 'u', 'e'] r).map fun r2 => (JVal.bool true, r2)
    else if c = 'f' then (expect_lit ['a', 'l', 's', 'e'] r).map fun r2 => (JVal.bool false, r2)
    else if c = 'n' then (expect_lit ['u', 'l', 'l'] r).map fun r2 => (JVal.null, r2)
    else if c = '-' then
      let ds := take_digits r
      if ds.1.isEmpty then none else some (JVal.num true ds.1, ds.2)
    else if c.isDigit then
      let ds := take_digits (c :: r)
      some (JVal.num false ds.1, ds.2)
    else none

/-- Fuelled strict JSON value reader (model of the standard library
`json.loads` value grammar). -/
def parse_jval : Nat → List Char → Option (JVal × List Char) :=
  Nat.rec (fun _ => none) fun fuel ih => parse_jval_step ih fuel

/-- Model of `json.loads`: one value, then only whitespace. -/
def json_loads (s : List Char) : Option JVal :=
  (parse_jval (s.length + 1) s).bind fun p =>
    if (skip_ws p.2).isEmpty then some p.1 else none

/-- Embedding of the credentials read of `load_user_configurations`
(bot_manager.py:190–194): plain `json.load`, no forgiveness; a decode error
aborts the load. -/
def load_credentials_document (text : List Char) : Option JVal :=
  json_loads text

/-- Embedding of `content.endswith(',}') / content.endswith(',]')`
replacement applied to the groups text. -/
def fix_trailing_comma (content : List Char) : List Char :=
  match content.reverse with
  | '}' :: ',' :: r => ('}' :: r).reverse
  | ']' :: ',' :: r => (']' :: r).reverse
  | _ => content

/-- Embedding of the groups read of `load_user_configurations`
(bot_manager.py:197–207) and `_handle_groups_change`
(multi_user.py:195–202): strip, fix a final stray comma, parse. -/
def load_groups_document (text : List Char) : Option JVal :=
  json_loads (fix_trailing_comma (py_strip text))

/-- The groups document text `{"1": ["u"],}` with a stray final comma. -/
def groups_doc_with_comma : List Char :=
  ['{', '"', '1', '"', ':', ' ', '[', '"', 'u', '"', ']', ',', '}']

/-- The same groups document without the stray comma. -/
def groups_doc_clean : List Char :=
  ['{', '"', '1', '"', ':', ' ', '[', '"', 'u', '"', ']', '}']

/-- The credentials document text `{"1": true,}` with a stray final
comma. -/
def credentials_doc_with_comma : List Char :=
  ['{', '"', '1', '"', ':', ' ', 't', 'r', 'u', 'e', ',', '}']

/-- The same credentials document without the stray comma. -/
def credentials_doc_clean : List Char :=
  ['{', '"', '1', '"', ':', ' ', 't', 'r', 'u', 'e', '}']

/-- CLAIM C9 (counterexample): the credentials document is read with the
strict reader and no forgiveness — a single stray trailing comma before
`}` makes the read fail instead of yielding the same result as the
comma-free document. -/
theorem trailing_comma_credentials_counterexample :
    load_credentials_document credentials_doc_with_comma = none ∧
    load_credentials_document credentials_doc_clean
      = some (JVal.obj [(['1'], JVal.bool true)]) ∧
    load_credentials_document credentials_doc_with_comma
      ≠ load_credentials_document credentials_doc_clean := by
  refine ⟨rfl, rfl, ?_⟩
  intro hc
  rw [show load_credentials_document credentials_doc_with_comma = none from rfl,
    show load_credentials_document credentials_doc_clean
      = some (JVal.obj [(['1'], JVal.bool true)]) from rfl] at hc
  exact Option.noConfusion hc

/-- CLAIM C9 (amended): only the groups (targets) document read tolerates a
stray comma, and only one standing at the very end of the stripped text,
directly before the final `}` or `]`: the fix rewrites `…,}` to `…}` and
`…,]` to `…]`, after which the read equals the read of the comma-free
document; the credentials read uses the strict reader, where the stray
comma is a read failure rather than being tolerated. -/
theorem trailing_comma_amended :
    (∀ s : List Char, fix_trailing_comma (s ++ [',', '}']) = s ++ ['}']) ∧
    (∀ s : List Char, fix_trailing_comma (s ++ [',', ']']) = s ++ [']']) ∧
    load_groups_document groups_doc_with_comma = load_groups_document groups_doc_clean ∧
    load_groups_document groups_doc_with_comma
      = some (JVal.obj [(['1'], JVal.arr [JVal.str ['u']])]) ∧
    load_credentials_document credentials_doc_with_comma = none := by
  refine ⟨?_, ?_, rfl, rfl, rfl⟩
  · intro s
    unfold fix_trailing_comma
    rw [show (s ++ [',', '}']).reverse = '}' :: ',' :: s.reverse by simp]
    simp
  · intro s
    unfold fix_trailing_comma
    rw [show (s ++ [',', ']']).reverse = ']' :: ',' :: s.reverse by simp]
    simp
